import Mathlib

/-!
Verification of the room/session orchestration core of the Human Hunter
group-chat game (FastAPI backend in backend/main.py, game logic in
backend/langgraph_game.py and backend/langgraph_state.py, plus the Discord
adapter in discord_bot/game_manager.py).

The Python code is shallowly embedded: dictionaries become association
lists (with CPython insertion-order semantics for inserts), calls to
random.choice and random.shuffle take explicit seeds selecting an index
respectively a rotation, wall-clock timestamps become naturals, and the
transport layer (WebSocket broadcasts, Discord messages, stats files) is
outside the model.  The concurrent agent-turn pipeline is embedded as a
function of the session states observed at each of its await points.
-/

namespace HumanHunter

/-- Game phases (backend/langgraph_state.py, class Phase). -/
inductive Phase
  | discussion
  | voting
  | elimination
  | gameOver
deriving DecidableEq

/-- Player roles: the literal "human" / "ai" strings of PlayerInfo.role. -/
inductive Role
  | human
  | ai
deriving DecidableEq

/-- Winner side, the "human" / "ai" strings stored in state winner. -/
inductive Winner
  | human
  | ai
deriving DecidableEq

/-- PlayerInfo (backend/langgraph_state.py). -/
structure PlayerInfo where
  id : String
  role : Role
  eliminated : Bool
  personality : Option String
deriving DecidableEq

/-- ChatMessage (backend/langgraph_state.py); timestamps modeled as naturals. -/
structure ChatMessage where
  sender : String
  message : String
  timestamp : Nat
deriving DecidableEq

/--
GameState (backend/langgraph_state.py).  Vote targets are Option String
because the REST vote endpoint records vote_data.get, which is None when
the field is absent.  selected_suspect and suspect_role are the ad hoc
keys added by complete_voting in backend/main.py, modeled as optional
fields.  broadcast_queue, pseudonym_map and human_external_name are
transport or prompt cosmetics used by no modeled operation and are
omitted.
-/
structure GameState where
  room_code : String
  round : Nat
  phase : Phase
  num_ai_players : Nat
  players : List PlayerInfo
  chat_history : List ChatMessage
  topic : String
  votes : List (String × Option String)
  ai_personalities : List (String × String)
  last_message_time : Nat
  round_start_time : Nat
  winner : Option Winner
  eliminated_player : Option String
  pending_ai_messages : List String
  pending_ai_votes : List String
  selected_suspect : Option String
  suspect_role : Option Role
deriving DecidableEq

/-! ## Python dictionaries as association lists -/

/-- Python dict membership (`k in d`). -/
def dictMem {κ α : Type} [DecidableEq κ] (k : κ) (d : List (κ × α)) : Bool :=
  d.any (fun e => e.1 = k)

/-- Python dict read (`d.get(k)`): first binding of the key. -/
def dictGet {κ α : Type} [DecidableEq κ] (k : κ) : List (κ × α) → Option α
  | [] => none
  | e :: t => if e.1 = k then some e.2 else dictGet k t

/-- Python dict write (`d[k] = v`): replaces in place, else appends,
matching CPython insertion-order semantics. -/
def dictInsert {κ α : Type} [DecidableEq κ] (k : κ) (v : α) :
    List (κ × α) → List (κ × α)
  | [] => [(k, v)]
  | e :: t => if e.1 = k then (k, v) :: t else e :: dictInsert k v t

/-- Python `d.update(u)`: every binding of u written into d in order. -/
def dictUpdate {κ α : Type} [DecidableEq κ] (d u : List (κ × α)) :
    List (κ × α) :=
  u.foldl (fun acc e => dictInsert e.1 e.2 acc) d

/-! ## Seeded randomness -/

/-- random.choice modeled by a seed selecting an index; none on the empty
list, where Python would raise IndexError. -/
def randomChoice {α : Type} (seed : Nat) (l : List α) : Option α :=
  l.get? (seed % l.length)

/-- random.shuffle modeled as a seed-indexed rotation; the development
relies only on the result being a permutation of the input. -/
def seededShuffle {α : Type} (seed : Nat) (l : List α) : List α :=
  l.rotate (seed % (l.length + 1))

/-! ## Vote tallying (complete_voting, backend/main.py:309-319) -/

/-- The tallying loop of complete_voting, folded over the non-None vote
targets (the loop body skips `target is None`). -/
def tallyInto (acc : List (String × Nat)) : List String → List (String × Nat)
  | [] => acc
  | t :: ts => tallyInto (dictInsert t ((dictGet t acc).getD 0 + 1) acc) ts

/-- vote_counts of complete_voting: per-target counts over the non-None
targets of the votes dict. -/
def voteCounts (votes : List (String × Option String)) : List (String × Nat) :=
  tallyInto [] (votes.filterMap (fun e => e.2))

/-- max(vote_counts.values()); 0 on an empty tally (the code only reads it
when the tally is non-empty). -/
def maxVal (l : List (String × Nat)) : Nat :=
  (l.map (fun e => e.2)).foldr max 0

/-- The candidates list of complete_voting: all targets achieving the
maximum count. -/
def tieCandidates (votes : List (String × Option String)) : List String :=
  ((voteCounts votes).filter (fun e => e.2 = maxVal (voteCounts votes))).map
    (fun e => e.1)

/-- Python truthiness of the suspect variable: None and the empty string
are falsy. -/
def pyTruthy : Option String → Bool
  | none => false
  | some t => t ≠ ""

/-- Lines 315-319 of backend/main.py: suspect from the tally, a random
tied candidate on a tie, the unique candidate otherwise, None when no
(non-None) votes exist. -/
def tallySuspect (votes : List (String × Option String)) (seed1 : Nat) :
    Option String :=
  if voteCounts votes ≠ [] then
    if (tieCandidates votes).length > 1 then
      randomChoice seed1 (tieCandidates votes)
    else (tieCandidates votes).head?
  else none

/-- Lines 320-323 of backend/main.py: fallback when suspect is falsy — a
random player of role ai (note: not filtered by eliminated), None if there
are no ai players. -/
def fallbackSuspect (s : GameState) (seed2 : Nat) : Option String :=
  let ai_ids := (s.players.filter (fun p => p.role == Role.ai)).map (fun p => p.id)
  if ai_ids ≠ [] then randomChoice seed2 ai_ids else none

/--
complete_voting (backend/main.py:291-353).  Broadcasts, the stats file and
the room registry write-back are transport effects outside the model; the
subsequent game_over_node update only re-sets phase to GameOver and queues
a broadcast.  The two potential random.choice draws take seeds seed1
(tie-break) and seed2 (no-vote fallback).
-/
def complete_voting (s : GameState) (seed1 seed2 : Nat) : GameState :=
  if s.phase ≠ Phase.voting then s
  else
    let suspect0 := tallySuspect s.votes seed1
    let suspect := if pyTruthy suspect0 then suspect0 else fallbackSuspect s seed2
    let suspectRole :=
      (s.players.find? (fun p => decide (some p.id = suspect))).map (fun p => p.role)
    { s with
      selected_suspect := suspect
      suspect_role := suspectRole
      winner := some (if suspectRole = some Role.ai then Winner.human else Winner.ai)
      phase := Phase.gameOver }

/-! ## Human vote writes -/

/-- Responses of the REST vote endpoint (backend/main.py:1376-1422). -/
inductive VoteResp
  | roomNotFound
  | notVotingPhase
  | alreadyVoted
  | success
deriving DecidableEq

/--
cast_vote (backend/main.py:1376-1422).  Room lookup is the registry and is
outside the model (roomNotFound unused here).  Returns the response, the
resulting session state, and whether the completion check fired
complete_voting (the Resolution trigger).
-/
def cast_vote (s : GameState) (player_id : String) (voted_for : Option String)
    (seed1 seed2 : Nat) : VoteResp × GameState × Bool :=
  if s.phase ≠ Phase.voting then (VoteResp.notVotingPhase, s, false)
  else if dictMem player_id s.votes then (VoteResp.alreadyVoted, s, false)
  else
    let s1 : GameState := { s with votes := dictInsert player_id voted_for s.votes }
    let active : List String :=
      (s1.players.filter (fun p => !p.eliminated)).map (fun p => p.id)
    if active.length ≤ s1.votes.length then
      (VoteResp.success, complete_voting s1 seed1 seed2, true)
    else (VoteResp.success, s1, false)

/-- process_human_vote (backend/langgraph_game.py:648-665), the vote write
of the WebSocket path: unconditionally writes the entry, with no duplicate
or phase or eliminated-voter check of its own. -/
def process_human_vote (s : GameState) (player_id : String)
    (voted_for : Option String) : GameState :=
  { s with votes := dictInsert player_id voted_for s.votes }

/-! ## Agent decision fallback (_should_agent_respond) -/

/-- Outcome of the LLM decision call as seen by _should_agent_respond
(backend/langgraph_game.py:488-498): a parsed boolean, a parsed JSON
object lacking the should_respond key (dict.get default False), or an
exception / unparseable output. -/
inductive DecisionOutcome
  | ok (b : Bool)
  | missingKey
  | failure
deriving DecidableEq

/-- The decision returned by _should_agent_respond as a function of the
capability outcome; u is the random.random() draw in [0, 1), so the
exception fallback responds exactly when u < 0.3. -/
def should_agent_respond (outcome : DecisionOutcome) (u : ℚ) : Bool :=
  match outcome with
  | DecisionOutcome.ok b => b
  | DecisionOutcome.missingKey => false
  | DecisionOutcome.failure => decide (u < 3 / 10)

/-! ## Agent vote generation (_generate_ai_vote) -/

/-- eligible_targets of _generate_ai_vote (backend/langgraph_game.py:566-569):
non-eliminated players other than the voting agent; visible names equal
real ids in this build, so the index map back is the identity. -/
def eligibleTargets (s : GameState) (ai_id : String) : List String :=
  (s.players.filter (fun p => !p.eliminated && p.id != ai_id)).map (fun p => p.id)

/-- The retry loop of _generate_ai_vote: each element of attempts is one
LLM call outcome (none = exception or missing key, some v = the parsed
vote string); a parsed vote is returned only if it is an eligible target,
otherwise the loop continues; after the attempts a random eligible target
is drawn.  none only when eligible is empty, where random.choice raises. -/
def pickVote (eligible : List String) (seed : Nat) :
    List (Option String) → Option String
  | [] => randomChoice seed eligible
  | a :: rest =>
    match a with
    | some v => if v ∈ eligible then some v else pickVote eligible seed rest
    | none => pickVote eligible seed rest

/-- _generate_ai_vote (backend/langgraph_game.py:552-596): at most three
attempt outcomes are inspected (for attempt in range(3)), then the random
fallback. -/
def generate_ai_vote (s : GameState) (ai_id : String)
    (attempts : List (Option String)) (seed : Nat) : Option String :=
  pickVote (eligibleTargets s ai_id) seed (attempts.take 3)

/-! ## AI voting loop (ai_vote_agent_node, process_ai_votes) -/

/-- The dict returned by ai_vote_agent_node when it acts. -/
structure AIVoteResult where
  votes : List (String × Option String)
  pending : List String
deriving DecidableEq

/-- Outcome of one ai_vote_agent_node call. -/
inductive NodeResult
  | emptyDict
  | crash
  | ok (r : AIVoteResult)
deriving DecidableEq

/-- ai_vote_agent_node (backend/langgraph_game.py:225-258) with an explicit
ai_id, as called from process_ai_votes: returns the empty dict when no
votes are pending, otherwise writes the generated vote into a copy of the
votes dict and drops the agent from pending_ai_votes.  crash models the
uncaught IndexError of the random fallback when no target is eligible. -/
def ai_vote_agent_node (s : GameState) (ai_id : String)
    (attempts : List (Option String)) (seed : Nat) : NodeResult :=
  if s.pending_ai_votes = [] then NodeResult.emptyDict
  else
    match generate_ai_vote s ai_id attempts seed with
    | none => NodeResult.crash
    | some v =>
      NodeResult.ok
        { votes := dictInsert ai_id (some v) s.votes
          pending := s.pending_ai_votes.filter (fun a => a ≠ ai_id) }

/-- The completion check run after each vote merge in process_ai_votes
(backend/main.py:284-288): trigger complete_voting when the vote count has
reached the non-eliminated player count. -/
def voteLoopCheck (s1 : GameState) (seed1 seed2 : Nat) : GameState × Bool :=
  if ((s1.players.filter (fun p => !p.eliminated)).map
      (fun p => p.id)).length ≤ s1.votes.length then
    (complete_voting s1 seed1 seed2, true)
  else (s1, false)

/-- One iteration of the while loop of process_ai_votes
(backend/main.py:260-288): the head pending agent votes, the result dict
is merged into the session votes, pending_ai_votes is replaced, then the
completion check runs.  none models the loop task dying on the node crash;
outside the loop condition nothing happens and no trigger fires. -/
def process_ai_votes_step (s : GameState) (attempts : List (Option String))
    (voteSeed seed1 seed2 : Nat) : Option (GameState × Bool) :=
  if s.pending_ai_votes = [] ∨ s.phase ≠ Phase.voting then some (s, false)
  else
    match ai_vote_agent_node s (s.pending_ai_votes.headD "") attempts voteSeed with
    | NodeResult.crash => none
    | NodeResult.emptyDict =>
      some (voteLoopCheck { s with pending_ai_votes := [] } seed1 seed2)
    | NodeResult.ok r =>
      some (voteLoopCheck
        { s with votes := dictUpdate s.votes r.votes, pending_ai_votes := r.pending }
        seed1 seed2)

/-! ## The agent turn pipeline (process_single_ai_message) -/

/-- The dict returned by ai_chat_agent_node to the async caller
(backend/langgraph_game.py:191-198): the one-message chat_history delta,
the remaining pending agents, the new last_message_time, and the message
metadata.  The falsy-result and missing-key early returns of the caller
are folded into the none case of Option TurnResult. -/
structure TurnResult where
  chat_delta : List ChatMessage
  pending : List String
  last_time : Nat
  sender : String
  message : String
deriving DecidableEq

/-- What process_single_ai_message writes back into the room state: nothing,
only the pending list cleared of the agent (defense layer 1), or a full
commit of the generated message. -/
inductive TurnWrite
  | noWrite
  | clearPending (s : GameState)
  | commit (s : GameState)
deriving DecidableEq

/-- The chat log contained in the state written by the turn, if any. -/
def chatWritten : TurnWrite → Option (List ChatMessage)
  | TurnWrite.noWrite => none
  | TurnWrite.clearPending s => some s.chat_history
  | TurnWrite.commit s => some s.chat_history

/--
process_single_ai_message (backend/main.py:356-481).  The room state is
re-read at every await point, so the pipeline is a function of the states
it observes: s0 at the initial pending check, s1 at defense layer 1 (after
generation), s2 at defense layer 2 (before the typing indicator and the
delay), s3 at defense layer 3 (after the delay, before the append).  res
is the ai_chat_agent_node output.  Returns the state write performed and
the room processing set after the finally block, which always discards the
agent.  Typing broadcasts and the follow-up wave trigger are transport
effects outside the model.
-/
def process_single_ai_message (s0 s1 s2 s3 : GameState)
    (res : Option TurnResult) (processing : List String) (ai_id : String) :
    TurnWrite × List String :=
  let fin := processing.filter (fun a => a ≠ ai_id)
  if ai_id ∉ s0.pending_ai_messages then (TurnWrite.noWrite, fin)
  else
    match res with
    | none => (TurnWrite.noWrite, fin)
    | some r =>
      if s1.phase ≠ Phase.discussion then
        (TurnWrite.clearPending
          { s1 with pending_ai_messages :=
              s1.pending_ai_messages.filter (fun p => p ≠ ai_id) }, fin)
      else if s2.phase ≠ Phase.discussion then (TurnWrite.noWrite, fin)
      else if s3.phase ≠ Phase.discussion then (TurnWrite.noWrite, fin)
      else
        (TurnWrite.commit
          { s3 with
            chat_history := s3.chat_history ++ r.chat_delta
            last_message_time := r.last_time
            pending_ai_messages := r.pending }, fin)

/-! ## Session creation (create_initial_state, create_game_for_room) -/

/-- AI_PERSONALITIES (backend/config.py). -/
def AI_PERSONALITIES : List String :=
  ["slightly sarcastic", "very cheerful", "inquisitive", "quiet and observant",
   "enthusiastic", "analytical", "humorous", "philosophical"]

/-- GAME_TOPICS (backend/config.py); apostrophes written as \x27. -/
def GAME_TOPICS : List String :=
  ["What\x27s the best topping for pizza?",
   "If you could have any superpower, what would it be?",
   "What\x27s your favorite movie and why?",
   "Tell a funny story from your childhood.",
   "If you could live in any time period, when would it be?",
   "What\x27s your unpopular opinion?",
   "What\x27s the worst advice you\x27ve ever received?",
   "If you could master any skill instantly, what would it be?",
   "Prove that you are not an AI, but a human being. It is an all-out war; if you are voted as an AI, you will be killed."]

/--
create_initial_state (backend/langgraph_state.py:81-145).  Its Python
signature has exactly the two parameters (room_code, num_ai_players);
randomness is seeded explicitly (name shuffle, per-player personality
draw, topic draw) and time.time() is modeled as 0.
-/
def create_initial_state (room_code : String) (num_ai_players : Nat)
    (seedShuffle seedPers seedTopic : Nat) : GameState :=
  let ai_names : List String :=
    seededShuffle seedShuffle
      ((List.range num_ai_players).map (fun i => "Player " ++ toString (i + 1)))
  let players : List PlayerInfo :=
    ai_names.enum.map (fun e =>
      { id := e.2, role := Role.ai, eliminated := false,
        personality := randomChoice (seedPers + e.1) AI_PERSONALITIES })
  { room_code := room_code
    round := 1
    phase := Phase.discussion
    num_ai_players := num_ai_players
    players := players
    chat_history := []
    topic := (randomChoice seedTopic GAME_TOPICS).getD ""
    votes := []
    ai_personalities :=
      players.filterMap (fun p => p.personality.map (fun q => (p.id, q)))
    last_message_time := 0
    round_start_time := 0
    winner := none
    eliminated_player := none
    pending_ai_messages := []
    pending_ai_votes := []
    selected_suspect := none
    suspect_role := none }

/-- Python runtime errors surfacing from the modeled calls. -/
inductive PyError
  | typeError
deriving DecidableEq

/-- The parameter count of create_initial_state in
backend/langgraph_state.py:81: (room_code, num_ai_players). -/
def create_initial_state_paramCount : Nat := 2

/--
create_game_for_room (backend/langgraph_game.py:603-615).  Its whole body
is the call create_initial_state(room_code, num_ai_players, ai_player_ids),
which passes three positional arguments whatever the value of
ai_player_ids; Python rejects the call with TypeError whenever the
argument count exceeds the parameter count of the callee, before the
callee body runs.
-/
def create_game_for_room (room_code : String) (num_ai_players : Nat)
    (ai_player_ids : Option (List String)) (seedShuffle seedPers seedTopic : Nat) :
    Except PyError GameState :=
  if 3 ≤ create_initial_state_paramCount then
    Except.ok (create_initial_state room_code num_ai_players
      seedShuffle seedPers seedTopic)
  else Except.error PyError.typeError

/-! ## Discord channel vote (handle_channel_vote) -/

/-- A member record of session.room.players (discord_bot/game_manager.py):
the field handle_channel_vote reads. -/
structure RoomPlayer where
  game_player_id : String
deriving DecidableEq

/-- The slice of a Discord game session touched by handle_channel_vote:
session.state phase and players, session.room.players, session.votes
(keyed by Discord user id). -/
structure DiscordSession where
  phase : Phase
  players : List PlayerInfo
  roomPlayers : List (Int × RoomPlayer)
  votes : List (Int × String)
deriving DecidableEq

/-- The (success, message) replies of handle_channel_vote, one constructor
per source message string. -/
inductive ChanVoteMsg
  | sessionNotFound
  | notVotingPhase
  | notInGame
  | eliminatedCannotVote
  | alreadyVoted
  | invalidPlayer
  | voteRecorded (target : String)
deriving DecidableEq

/-- Python str.lower(). -/
def lowerStr (s : String) : String :=
  String.mk (s.data.map Char.toLower)

/-- Python str.strip(): whitespace removed from both ends. -/
def stripStr (s : String) : String :=
  String.mk
    (((s.data.dropWhile Char.isWhitespace).reverse.dropWhile
        Char.isWhitespace).reverse)

/-- Whether the first list is an initial segment of the second. -/
def begMatch : List Char → List Char → Bool
  | [], _ => true
  | _ :: _, [] => false
  | a :: as, b :: bs => a = b && begMatch as bs

/-- Python substring containment (`needle in hay`). -/
def subStrOf (needle : List Char) : List Char → Bool
  | [] => begMatch needle []
  | c :: t => begMatch needle (c :: t) || subStrOf needle t

/--
handle_channel_vote (discord_bot/game_manager.py:438-528).  The checks run
in source order: voting phase, room membership, voter not eliminated,
not already voted, exact target validation (non-eliminated, non-self) with
a lowercase-substring fuzzy fallback over the active players.  The DM
cleanup after the vote write is transport.  Returns the reply and the
session after any vote write.
-/
def handle_channel_vote (sess : DiscordSession) (discord_id : Int)
    (player_id : String) : ChanVoteMsg × DiscordSession :=
  if sess.phase ≠ Phase.voting then (ChanVoteMsg.notVotingPhase, sess)
  else
    match dictGet discord_id sess.roomPlayers with
    | none => (ChanVoteMsg.notInGame, sess)
    | some player =>
      let player_obj : Option PlayerInfo :=
        sess.players.find? (fun p => p.id == player.game_player_id)
      if (player_obj.map (fun p => p.eliminated)).getD false then
        (ChanVoteMsg.eliminatedCannotVote, sess)
      else if dictMem discord_id sess.votes then (ChanVoteMsg.alreadyVoted, sess)
      else
        let target0 : Option PlayerInfo :=
          sess.players.find? (fun p =>
            p.id == player_id && !p.eliminated && p.id != player.game_player_id)
        let target : Option PlayerInfo :=
          match target0 with
          | some t => some t
          | none =>
            (sess.players.filter (fun p =>
                !p.eliminated && p.id != player.game_player_id)).find?
              (fun p =>
                subStrOf (stripStr (lowerStr player_id)).data (lowerStr p.id).data)
        match target with
        | none => (ChanVoteMsg.invalidPlayer, sess)
        | some t =>
          (ChanVoteMsg.voteRecorded t.id,
           { sess with votes := dictInsert discord_id t.id sess.votes })

/-! ## Dictionary lemmas -/

theorem dictGet_dictInsert {κ α : Type} [DecidableEq κ] (k c : κ) (v : α)
    (d : List (κ × α)) :
    dictGet c (dictInsert k v d) = if c = k then some v else dictGet c d := by
  induction d with
  | nil =>
    by_cases h : c = k
    · simp [dictInsert, dictGet, h]
    · have h2 : ¬ (k = c) := fun hk => h hk.symm
      simp [dictInsert, dictGet, h, h2]
  | cons e t ih =>
    by_cases h1 : e.1 = k
    · subst h1
      by_cases h2 : c = e.1
      · simp [dictInsert, dictGet, h2]
      · have h3 : ¬ (e.1 = c) := fun hk => h2 hk.symm
        simp [dictInsert, dictGet, h2, h3]
    · by_cases h2 : e.1 = c
      · have h3 : ¬ (c = k) := fun hck => h1 (h2.trans hck)
        simp [dictInsert, dictGet, h1, h2, h3]
      · simp [dictInsert, dictGet, h1, h2, ih]

theorem dictInsert_ne_nil {κ α : Type} [DecidableEq κ] (k : κ) (v : α)
    (d : List (κ × α)) : dictInsert k v d ≠ [] := by
  cases d with
  | nil => simp [dictInsert]
  | cons e t =>
    by_cases h : e.1 = k <;> simp [dictInsert, h]

theorem map_fst_dictInsert {κ α : Type} [DecidableEq κ] (k : κ) (v : α)
    (d : List (κ × α)) :
    (dictInsert k v d).map Prod.fst =
      if k ∈ d.map Prod.fst then d.map Prod.fst
      else d.map Prod.fst ++ [k] := by
  induction d with
  | nil => simp [dictInsert]
  | cons e t ih =>
    by_cases h1 : e.1 = k
    · simp [dictInsert, h1]
    · have hne : ¬ (k = e.1) := fun h => h1 h.symm
      by_cases h2 : k ∈ t.map Prod.fst <;>
        simp [dictInsert, h1, h2, ih, hne]

theorem nodupKeys_dictInsert {κ α : Type} [DecidableEq κ] (k : κ) (v : α)
    (d : List (κ × α)) (hd : (d.map Prod.fst).Nodup) :
    ((dictInsert k v d).map Prod.fst).Nodup := by
  rw [map_fst_dictInsert]
  by_cases h : k ∈ d.map Prod.fst
  · simpa [h]
  · simp only [h, if_false]
    rw [List.nodup_append]
    refine ⟨hd, List.nodup_singleton _, ?_⟩
    intro a ha hk
    rw [List.mem_singleton] at hk
    subst hk
    exact h ha

theorem dictGet_of_mem_nodupKeys {κ α : Type} [DecidableEq κ] {k : κ} {v : α}
    {d : List (κ × α)} (hd : (d.map Prod.fst).Nodup) (hm : (k, v) ∈ d) :
    dictGet k d = some v := by
  induction d with
  | nil => cases hm
  | cons e t ih =>
    rcases List.mem_cons.mp hm with h | h
    · simp [dictGet, ← h]
    · have hk : e.1 ≠ k := by
        intro hek
        have : k ∈ t.map Prod.fst :=
          List.mem_map.mpr ⟨(k, v), h, rfl⟩
        simp only [List.map_cons, List.nodup_cons, hek] at hd
        exact hd.1 this
      have ht : (t.map Prod.fst).Nodup := by
        simp only [List.map_cons, List.nodup_cons] at hd
        exact hd.2
      simp [dictGet, hk, ih ht h]

theorem mem_of_dictGet {κ α : Type} [DecidableEq κ] {k : κ} {v : α}
    {d : List (κ × α)} (h : dictGet k d = some v) : (k, v) ∈ d := by
  induction d with
  | nil => simp [dictGet] at h
  | cons e t ih =>
    obtain ⟨k1, v1⟩ := e
    by_cases he : k1 = k
    · subst he
      simp only [dictGet, if_true] at h
      injection h with h
      subst h
      exact List.mem_cons_self _ _
    · simp only [dictGet, he, if_false] at h
      exact List.mem_cons_of_mem _ (ih h)

theorem dictGet_isSome_iff {κ α : Type} [DecidableEq κ] (k : κ)
    (d : List (κ × α)) : (dictGet k d).isSome ↔ k ∈ d.map Prod.fst := by
  induction d with
  | nil => simp [dictGet]
  | cons e t ih =>
    obtain ⟨k1, v1⟩ := e
    by_cases he : k1 = k
    · subst he
      simp [dictGet]
    · have h2 : ¬ (k = k1) := fun hk => he hk.symm
      simp [dictGet, he, h2, ih]

/-! ## Tally lemmas -/

theorem tallyInto_getD (ts : List String) :
    ∀ (acc : List (String × Nat)) (c : String),
      (dictGet c (tallyInto acc ts)).getD 0 =
        (dictGet c acc).getD 0 + ts.count c := by
  induction ts with
  | nil => intro acc c; simp [tallyInto]
  | cons t ts ih =>
    intro acc c
    rw [tallyInto, ih, dictGet_dictInsert]
    by_cases h : c = t
    · subst h
      simp only [if_true, Option.getD_some, List.count_cons,
        beq_self_eq_true, if_pos]
      omega
    · simp only [h, if_false, List.count_cons]
      have hb : (c == t) = false := by
        simpa using h
      have h2 : ¬ (t = c) := fun hh => h hh.symm
      simp [hb, h2]

theorem tallyInto_mem_keys (ts : List String) :
    ∀ (acc : List (String × Nat)) (c : String),
      c ∈ (tallyInto acc ts).map Prod.fst ↔
        c ∈ acc.map Prod.fst ∨ c ∈ ts := by
  induction ts with
  | nil => intro acc c; simp [tallyInto]
  | cons t ts ih =>
    intro acc c
    rw [tallyInto, ih, map_fst_dictInsert]
    by_cases hm : t ∈ acc.map Prod.fst
    · rw [if_pos hm, List.mem_cons]
      constructor
      · rintro (h | h)
        · exact Or.inl h
        · exact Or.inr (Or.inr h)
      · rintro (h | h | h)
        · exact Or.inl h
        · exact Or.inl (h ▸ hm)
        · exact Or.inr h
    · rw [if_neg hm, List.mem_cons]
      constructor
      · rintro (h | h)
        · rcases List.mem_append.mp h with h1 | h1
          · exact Or.inl h1
          · exact Or.inr (Or.inl (List.mem_singleton.mp h1))
        · exact Or.inr (Or.inr h)
      · rintro (h | h | h)
        · exact Or.inl (List.mem_append.mpr (Or.inl h))
        · exact Or.inl (List.mem_append.mpr (Or.inr (List.mem_singleton.mpr h)))
        · exact Or.inr h

theorem tallyInto_eq_nil (ts : List String) :
    ∀ (acc : List (String × Nat)),
      tallyInto acc ts = [] → acc = [] ∧ ts = [] := by
  induction ts with
  | nil => intro acc h; exact ⟨h, rfl⟩
  | cons t ts ih =>
    intro acc h
    rw [tallyInto] at h
    have := (ih _ h).1
    exact absurd this (dictInsert_ne_nil _ _ _)

theorem tallyInto_nodupKeys (ts : List String) :
    ∀ (acc : List (String × Nat)), (acc.map Prod.fst).Nodup →
      ((tallyInto acc ts).map Prod.fst).Nodup := by
  induction ts with
  | nil => intro acc h; exact h
  | cons t ts ih =>
    intro acc h
    rw [tallyInto]
    exact ih _ (nodupKeys_dictInsert _ _ _ h)

/-- The non-None targets of a votes dict. -/
def realTargets (votes : List (String × Option String)) : List String :=
  votes.filterMap (fun e => e.2)

theorem voteCounts_nodupKeys (votes : List (String × Option String)) :
    ((voteCounts votes).map Prod.fst).Nodup :=
  tallyInto_nodupKeys _ [] (by simp)

theorem voteCounts_mem_keys (votes : List (String × Option String))
    (c : String) :
    c ∈ (voteCounts votes).map Prod.fst ↔ c ∈ realTargets votes := by
  rw [voteCounts, tallyInto_mem_keys]
  simp [realTargets]

theorem voteCounts_getD (votes : List (String × Option String)) (c : String) :
    (dictGet c (voteCounts votes)).getD 0 = (realTargets votes).count c := by
  rw [voteCounts, tallyInto_getD]
  simp [dictGet, realTargets]

theorem voteCounts_ne_nil {votes : List (String × Option String)}
    (h : realTargets votes ≠ []) : voteCounts votes ≠ [] := by
  intro hc
  exact h (tallyInto_eq_nil _ [] hc).2

theorem dictGet_voteCounts_of_mem {votes : List (String × Option String)}
    {c : String} (h : c ∈ realTargets votes) :
    dictGet c (voteCounts votes) = some ((realTargets votes).count c) := by
  have hs : (dictGet c (voteCounts votes)).isSome :=
    (dictGet_isSome_iff _ _).mpr ((voteCounts_mem_keys votes c).mpr h)
  have hg := voteCounts_getD votes c
  cases hd : dictGet c (voteCounts votes) with
  | none => rw [hd] at hs; cases hs
  | some n =>
    rw [hd] at hg
    simp only [Option.getD_some] at hg
    rw [hg]

theorem mem_voteCounts_count {votes : List (String × Option String)}
    {c : String} {n : Nat} (h : (c, n) ∈ voteCounts votes) :
    n = (realTargets votes).count c ∧ c ∈ realTargets votes := by
  have hg : dictGet c (voteCounts votes) = some n :=
    dictGet_of_mem_nodupKeys (voteCounts_nodupKeys votes) h
  have hmem : c ∈ realTargets votes := by
    rw [← voteCounts_mem_keys]
    exact List.mem_map.mpr ⟨(c, n), h, rfl⟩
  have := voteCounts_getD votes c
  rw [hg] at this
  exact ⟨by simpa using this, hmem⟩

/-! ## Maximum lemmas -/

theorem le_foldr_max (xs : List Nat) (x : Nat) (hx : x ∈ xs) :
    x ≤ xs.foldr max 0 := by
  induction xs with
  | nil => cases hx
  | cons a t ih =>
    rcases List.mem_cons.mp hx with h | h
    · subst h; exact le_max_left _ _
    · exact le_trans (ih h) (le_max_right _ _)

theorem foldr_max_mem (xs : List Nat) (h : xs ≠ []) : xs.foldr max 0 ∈ xs := by
  induction xs with
  | nil => exact absurd rfl h
  | cons a t ih =>
    cases t with
    | nil => simp
    | cons b u =>
      rcases max_choice a ((b :: u).foldr max 0) with hm | hm
      · rw [List.foldr_cons, hm]; exact List.mem_cons_self _ _
      · rw [List.foldr_cons, hm]
        exact List.mem_cons_of_mem _ (ih (by simp))

theorem count_le_maxVal (votes : List (String × Option String)) (t : String) :
    (realTargets votes).count t ≤ maxVal (voteCounts votes) := by
  by_cases h : t ∈ realTargets votes
  · have hg := dictGet_voteCounts_of_mem h
    have hm : ((realTargets votes).count t) ∈ (voteCounts votes).map (fun e => e.2) :=
      List.mem_map.mpr ⟨(t, (realTargets votes).count t), mem_of_dictGet hg, rfl⟩
    exact le_foldr_max _ _ hm
  · simp [List.count_eq_zero_of_not_mem h]

/-! ## Random choice lemmas -/

theorem randomChoice_mem {α : Type} {seed : Nat} {l : List α} {c : α}
    (h : randomChoice seed l = some c) : c ∈ l :=
  List.get?_mem h

theorem randomChoice_isSome_mem {α : Type} (seed : Nat) (l : List α)
    (h : l ≠ []) : ∃ c, randomChoice seed l = some c ∧ c ∈ l := by
  have hl : 0 < l.length := List.length_pos.mpr h
  have hm : seed % l.length < l.length := Nat.mod_lt _ hl
  refine ⟨l.get ⟨seed % l.length, hm⟩, ?_, List.get_mem _ _ _⟩
  exact List.get?_eq_get hm

theorem randomChoice_enum {α : Type} (l : List α) (h : l ≠ []) :
    (List.range l.length).map (fun i => randomChoice i l) = l.map some := by
  have hl : 0 < l.length := List.length_pos.mpr h
  apply List.ext_get
  · simp
  · intro n h1 h2
    simp only [List.length_map, List.length_range] at h1
    rw [List.get_map, List.get_map, List.get_range]
    show randomChoice n l = some _
    rw [randomChoice, Nat.mod_eq_of_lt h1]
    exact List.get?_eq_get h1

/-! ## Tie candidate lemmas -/

theorem tieCandidates_nodup (votes : List (String × Option String)) :
    (tieCandidates votes).Nodup := by
  have hsub : List.Sublist
      (((voteCounts votes).filter
        (fun e => e.2 = maxVal (voteCounts votes))).map Prod.fst)
      ((voteCounts votes).map Prod.fst) :=
    List.Sublist.map Prod.fst (List.filter_sublist _)
  exact (voteCounts_nodupKeys votes).sublist hsub

theorem mem_tieCandidates_iff (votes : List (String × Option String))
    (c : String) :
    c ∈ tieCandidates votes ↔
      c ∈ realTargets votes ∧
        (realTargets votes).count c = maxVal (voteCounts votes) := by
  constructor
  · intro h
    rcases List.mem_map.mp h with ⟨e, he, hfst⟩
    rcases List.mem_filter.mp he with ⟨hmem, hval⟩
    have hval2 : e.2 = maxVal (voteCounts votes) := by
      simpa using hval
    have : (c, e.2) ∈ voteCounts votes := by
      have : e = (c, e.2) := by
        rw [← hfst]
      rw [← this]
      exact hmem
    rcases mem_voteCounts_count this with ⟨hc, hmemT⟩
    exact ⟨hmemT, by rw [← hc, hval2]⟩
  · rintro ⟨hmem, hcnt⟩
    have hg := dictGet_voteCounts_of_mem hmem
    have hmemC : (c, (realTargets votes).count c) ∈ voteCounts votes :=
      mem_of_dictGet hg
    refine List.mem_map.mpr ⟨(c, (realTargets votes).count c), ?_, rfl⟩
    refine List.mem_filter.mpr ⟨hmemC, ?_⟩
    simpa using hcnt

theorem tieCandidates_ne_nil {votes : List (String × Option String)}
    (h : realTargets votes ≠ []) : tieCandidates votes ≠ [] := by
  have hc : voteCounts votes ≠ [] := voteCounts_ne_nil h
  have hvals : (voteCounts votes).map (fun e => e.2) ≠ [] := by
    simpa using hc
  have hmax : maxVal (voteCounts votes) ∈ (voteCounts votes).map (fun e => e.2) :=
    foldr_max_mem _ hvals
  rcases List.mem_map.mp hmax with ⟨e, he, hval⟩
  intro hnil
  have : e.1 ∈ tieCandidates votes := by
    refine List.mem_map.mpr ⟨e, ?_, rfl⟩
    refine List.mem_filter.mpr ⟨he, ?_⟩
    simpa using hval
  rw [hnil] at this
  cases this

theorem tieCandidates_subset_targets {votes : List (String × Option String)}
    {c : String} (h : c ∈ tieCandidates votes) : c ∈ realTargets votes :=
  ((mem_tieCandidates_iff votes c).mp h).1

/-! ## Suspect selection lemmas -/

theorem tallySuspect_eq_choice (votes : List (String × Option String))
    (seed : Nat) (h : realTargets votes ≠ []) :
    tallySuspect votes seed =
      if (tieCandidates votes).length > 1 then
        randomChoice seed (tieCandidates votes)
      else (tieCandidates votes).head? := by
  rw [tallySuspect, if_pos]
  exact voteCounts_ne_nil h

theorem tallySuspect_isSome_mem (votes : List (String × Option String))
    (seed : Nat) (h : realTargets votes ≠ []) :
    ∃ c, tallySuspect votes seed = some c ∧ c ∈ tieCandidates votes := by
  rw [tallySuspect_eq_choice votes seed h]
  by_cases hl : (tieCandidates votes).length > 1
  · rw [if_pos hl]
    exact randomChoice_isSome_mem seed _ (tieCandidates_ne_nil h)
  · rw [if_neg hl]
    cases hc : tieCandidates votes with
    | nil => exact absurd hc (tieCandidates_ne_nil h)
    | cons a t =>
      exact ⟨a, rfl, List.mem_cons_self _ _⟩

theorem tallySuspect_enum (votes : List (String × Option String))
    (h : realTargets votes ≠ []) :
    (List.range (tieCandidates votes).length).map
        (fun i => tallySuspect votes i) =
      (tieCandidates votes).map some := by
  have he : ∀ i, tallySuspect votes i =
      (if (tieCandidates votes).length > 1 then
        randomChoice i (tieCandidates votes)
      else (tieCandidates votes).head?) :=
    fun i => tallySuspect_eq_choice votes i h
  by_cases hl : (tieCandidates votes).length > 1
  · rw [← randomChoice_enum _ (tieCandidates_ne_nil h)]
    apply List.map_congr_left
    intro i _
    rw [he i, if_pos hl]
  · cases hc : tieCandidates votes with
    | nil => exact absurd hc (tieCandidates_ne_nil h)
    | cons a t =>
      have ht : t = [] := by
        rw [hc] at hl
        simp only [List.length_cons, gt_iff_lt, not_lt] at hl
        exact List.length_eq_zero.mp (by omega)
      subst ht
      have h0 : tallySuspect votes 0 = some a := by
        have h1 := he 0
        rw [hc] at h1
        simpa using h1
      simp [List.range_succ, h0]

/-! ## Maximum-count characterization -/

theorem maxVal_is_some_count {votes : List (String × Option String)}
    (h : realTargets votes ≠ []) :
    ∃ w ∈ realTargets votes,
      (realTargets votes).count w = maxVal (voteCounts votes) := by
  have hc : voteCounts votes ≠ [] := voteCounts_ne_nil h
  have hvals : (voteCounts votes).map (fun e => e.2) ≠ [] := by
    simpa using hc
  have hmax : maxVal (voteCounts votes) ∈ (voteCounts votes).map (fun e => e.2) :=
    foldr_max_mem _ hvals
  rcases List.mem_map.mp hmax with ⟨e, he, hval⟩
  rcases mem_voteCounts_count (show (e.1, e.2) ∈ voteCounts votes from he) with
    ⟨hcnt, hmem⟩
  exact ⟨e.1, hmem, by rw [← hcnt, hval]⟩

theorem count_eq_maxVal_iff {votes : List (String × Option String)}
    (h : realTargets votes ≠ []) (t : String) (ht : t ∈ realTargets votes) :
    (realTargets votes).count t = maxVal (voteCounts votes) ↔
      ∀ u, (realTargets votes).count u ≤ (realTargets votes).count t := by
  constructor
  · intro heq u
    rw [heq]
    exact count_le_maxVal votes u
  · intro hall
    rcases maxVal_is_some_count h with ⟨w, _, hw⟩
    exact le_antisymm (count_le_maxVal votes t) (hw ▸ hall w)

/-! ## complete_voting unfolding -/

theorem complete_voting_of_voting (s : GameState) (seed1 seed2 : Nat)
    (hph : s.phase = Phase.voting) :
    complete_voting s seed1 seed2 =
      { s with
        selected_suspect :=
          if pyTruthy (tallySuspect s.votes seed1) then tallySuspect s.votes seed1
          else fallbackSuspect s seed2
        suspect_role :=
          (s.players.find? (fun p => decide (some p.id =
            (if pyTruthy (tallySuspect s.votes seed1) then
              tallySuspect s.votes seed1
            else fallbackSuspect s seed2)))).map (fun p => p.role)
        winner :=
          some (if (s.players.find? (fun p => decide (some p.id =
              (if pyTruthy (tallySuspect s.votes seed1) then
                tallySuspect s.votes seed1
              else fallbackSuspect s seed2)))).map (fun p => p.role) =
              some Role.ai
            then Winner.human else Winner.ai)
        phase := Phase.gameOver } := by
  rw [complete_voting, if_neg (fun hne => hne hph)]

theorem complete_voting_not_voting (s : GameState) (seed1 seed2 : Nat)
    (h : s.phase ≠ Phase.voting) : complete_voting s seed1 seed2 = s := by
  rw [complete_voting, if_pos h]

/-! ## pickVote lemmas -/

theorem pickVote_isSome_mem (eligible : List String) (seed : Nat)
    (h : eligible ≠ []) (l : List (Option String)) :
    ∃ v, pickVote eligible seed l = some v ∧ v ∈ eligible := by
  induction l with
  | nil => simpa [pickVote] using randomChoice_isSome_mem seed eligible h
  | cons a rest ih =>
    cases a with
    | none => simpa [pickVote] using ih
    | some w =>
      by_cases hw : w ∈ eligible
      · exact ⟨w, by simp [pickVote, hw], hw⟩
      · simpa [pickVote, hw] using ih

theorem pickVote_all_invalid (eligible : List String) (seed : Nat)
    (l : List (Option String))
    (h : ∀ o ∈ l, ∀ w, o = some w → w ∉ eligible) :
    pickVote eligible seed l = randomChoice seed eligible := by
  induction l with
  | nil => rfl
  | cons a rest ih =>
    cases a with
    | none =>
      rw [pickVote]
      exact ih (fun o ho w hw => h o (List.mem_cons_of_mem _ ho) w hw)
    | some w =>
      have hw : w ∉ eligible := h (some w) (List.mem_cons_self _ _) w rfl
      rw [pickVote]
      simp only [hw, if_false]
      exact ih (fun o ho v hv => h o (List.mem_cons_of_mem _ ho) v hv)

/-! ## Concrete sessions for witnesses and counterexamples -/

/-- A convenience session builder for the concrete states below. -/
def mkState (players : List PlayerInfo) (votes : List (String × Option String))
    (phase : Phase) : GameState :=
  { room_code := "ROOM01", round := 1, phase := phase, num_ai_players := 3,
    players := players, chat_history := [], topic := "t", votes := votes,
    ai_personalities := [], last_message_time := 0, round_start_time := 0,
    winner := none, eliminated_player := none, pending_ai_messages := [],
    pending_ai_votes := [], selected_suspect := none, suspect_role := none }

def youHuman : PlayerInfo := ⟨"You", Role.human, false, none⟩

def agent1 : PlayerInfo := ⟨"Player 1", Role.ai, false, none⟩

def agent2 : PlayerInfo := ⟨"Player 2", Role.ai, false, none⟩

def agent3 : PlayerInfo := ⟨"Player 3", Role.ai, false, none⟩

def agent1Elim : PlayerInfo := ⟨"Player 1", Role.ai, true, none⟩

/-- The spec test scenario: 1 human + 3 agents, all agents vote for the
human, the human votes for an agent. -/
def stateScenario : GameState :=
  mkState [youHuman, agent1, agent2, agent3]
    [("Player 1", some "You"), ("Player 2", some "You"),
     ("Player 3", some "You"), ("You", some "Player 1")] Phase.voting

/-- A voting session whose only vote has a None target (a REST vote with
the voted_for field absent). -/
def stateNoneTarget : GameState :=
  mkState [agent1] [("You", none)] Phase.voting

/-- A voting session with no votes and no agents. -/
def stateNoAgents : GameState :=
  mkState [youHuman] [] Phase.voting

/-- A voting session with no votes, one eliminated agent and one live
agent. -/
def stateElimAgent : GameState :=
  mkState [youHuman, agent1Elim, agent2] [] Phase.voting

/-- A finished session. -/
def stateGameOver : GameState :=
  mkState [youHuman, agent1] [] Phase.gameOver

/-- A voting session in which You has already voted for Player 1. -/
def stateFirstVote : GameState :=
  mkState [youHuman, agent1, agent2, agent3]
    [("You", some "Player 1")] Phase.voting

/-- A voting session whose voter You is eliminated. -/
def stateElimVoter : GameState :=
  mkState [⟨"You", Role.human, true, none⟩, agent1, agent2] [] Phase.voting

/-! ## Claim C1 -/

/--
Claim C1 (amended).  When voting resolves with at least one recorded
non-null vote target and all recorded targets are non-empty strings, the
selected suspect is a target whose vote count is maximal, the winner is
the human side exactly when the suspect resolves to a player of role ai
and the agent side otherwise, and the tie-break draws uniformly over the
tied candidates: the candidate list has no duplicates, it consists exactly
of the maximal-count targets, and a full residue cycle of tie-break seeds
enumerates each candidate exactly once.  (The unamended claim, quantified
over any non-empty votes mapping, fails when every recorded target is
null: see the counterexample.)
-/
theorem claim1_resolution_majority (s : GameState) (seed1 seed2 : Nat)
    (hph : s.phase = Phase.voting)
    (hne : realTargets s.votes ≠ [])
    (hstr : ∀ t ∈ realTargets s.votes, t ≠ "") :
    (∃ c, (complete_voting s seed1 seed2).selected_suspect = some c ∧
      c ∈ realTargets s.votes ∧
      (∀ u, (realTargets s.votes).count u ≤ (realTargets s.votes).count c) ∧
      (complete_voting s seed1 seed2).suspect_role =
        (s.players.find? (fun p => decide (p.id = c))).map (fun p => p.role) ∧
      (complete_voting s seed1 seed2).winner =
        some (if (s.players.find? (fun p => decide (p.id = c))).map
              (fun p => p.role) = some Role.ai
          then Winner.human else Winner.ai) ∧
      (complete_voting s seed1 seed2).phase = Phase.gameOver) ∧
    (tieCandidates s.votes).Nodup ∧
    (∀ t, t ∈ tieCandidates s.votes ↔
      t ∈ realTargets s.votes ∧
      ∀ u, (realTargets s.votes).count u ≤ (realTargets s.votes).count t) ∧
    (List.range (tieCandidates s.votes).length).map
        (fun i => (complete_voting s i seed2).selected_suspect) =
      (tieCandidates s.votes).map some := by
  have hsusp : ∀ i, (complete_voting s i seed2).selected_suspect =
      tallySuspect s.votes i := by
    intro i
    rcases tallySuspect_isSome_mem s.votes i hne with ⟨ci, hci, hmi⟩
    have htr : pyTruthy (tallySuspect s.votes i) = true := by
      rw [hci]
      simpa [pyTruthy] using hstr ci (tieCandidates_subset_targets hmi)
    rw [complete_voting_of_voting s i seed2 hph]
    simp [htr]
  have hcand : ∀ t, t ∈ tieCandidates s.votes ↔
      t ∈ realTargets s.votes ∧
      ∀ u, (realTargets s.votes).count u ≤ (realTargets s.votes).count t := by
    intro t
    rw [mem_tieCandidates_iff]
    constructor
    · rintro ⟨hmem, hcnt⟩
      exact ⟨hmem, (count_eq_maxVal_iff hne t hmem).mp hcnt⟩
    · rintro ⟨hmem, hall⟩
      exact ⟨hmem, (count_eq_maxVal_iff hne t hmem).mpr hall⟩
  refine ⟨?_, tieCandidates_nodup s.votes, hcand, ?_⟩
  · rcases tallySuspect_isSome_mem s.votes seed1 hne with ⟨c, hc, hmem⟩
    have htr : pyTruthy (tallySuspect s.votes seed1) = true := by
      rw [hc]
      simpa [pyTruthy] using hstr c (tieCandidates_subset_targets hmem)
    have hfind : (fun p : PlayerInfo => decide (some p.id = some c)) =
        (fun p : PlayerInfo => decide (p.id = c)) := by
      funext p
      simp
    rw [hc] at htr
    rcases (hcand c).mp hmem with ⟨hmemT, hall⟩
    refine ⟨c, ?_, hmemT, hall, ?_, ?_, ?_⟩
    · rw [hsusp seed1, hc]
    · rw [complete_voting_of_voting s seed1 seed2 hph]
      simp only [hc, htr, if_true, hfind]
    · rw [complete_voting_of_voting s seed1 seed2 hph]
      simp only [hc, htr, if_true, hfind]
    · rw [complete_voting_of_voting s seed1 seed2 hph]
  · rw [List.map_congr_left (fun i _ => hsusp i)]
    exact tallySuspect_enum s.votes hne

/-- Claim C1 counterexample: a session whose votes mapping is non-empty
but whose only recorded target is null; resolution falls back to a random
agent, which is not a vote target at all, refuting the claim as stated
over every non-empty votes mapping. -/
theorem claim1_counterexample :
    stateNoneTarget.phase = Phase.voting ∧
    stateNoneTarget.votes ≠ [] ∧
    (complete_voting stateNoneTarget 0 0).selected_suspect = some "Player 1" ∧
    (∀ e ∈ stateNoneTarget.votes, e.2 ≠ some "Player 1") := by
  decide

/-- Claim C1 witness: the 1-human/3-agent scenario; all hypotheses hold
and the theorem applies. -/
theorem claim1_witness :
    ∃ c, (complete_voting stateScenario 0 0).selected_suspect = some c ∧
      c ∈ realTargets stateScenario.votes ∧
      (∀ u, (realTargets stateScenario.votes).count u ≤
        (realTargets stateScenario.votes).count c) ∧
      (complete_voting stateScenario 0 0).suspect_role =
        (stateScenario.players.find? (fun p => decide (p.id = c))).map
          (fun p => p.role) ∧
      (complete_voting stateScenario 0 0).winner =
        some (if (stateScenario.players.find? (fun p => decide (p.id = c))).map
              (fun p => p.role) = some Role.ai
          then Winner.human else Winner.ai) ∧
      (complete_voting stateScenario 0 0).phase = Phase.gameOver :=
  (claim1_resolution_majority stateScenario 0 0 (by decide) (by decide)
    (by decide)).1

/-! ## Claim C3 -/

/--
Claim C3.  Resolution is idempotent: on a session whose phase is no longer
Voting, complete_voting is the identity, and a second resolution
immediately after a first one (the timer / all-voted race) changes
nothing, so exactly one outcome and one phase transition are produced.
-/
theorem claim3_resolution_idempotent (s : GameState) (a b c d : Nat) :
    (s.phase ≠ Phase.voting → complete_voting s a b = s) ∧
    complete_voting (complete_voting s a b) c d = complete_voting s a b := by
  constructor
  · intro h
    exact complete_voting_not_voting s a b h
  · by_cases h : s.phase = Phase.voting
    · have h2 : (complete_voting s a b).phase = Phase.gameOver := by
        rw [complete_voting_of_voting s a b h]
      exact complete_voting_not_voting _ c d (by rw [h2]; simp)
    · rw [complete_voting_not_voting s a b h,
        complete_voting_not_voting s c d h]

/-- Claim C3 witness: a finished session is untouched by a further
resolution trigger. -/
theorem claim3_witness :
    complete_voting stateGameOver 0 0 = stateGameOver :=
  (claim3_resolution_idempotent stateGameOver 0 0 1 1).1 (by decide)

/-! ## Claim C5 -/

/--
Claim C5 (amended).  When voting resolves with an empty votes mapping and
the session has at least one player of role ai, resolution produces a
non-null outcome drawn uniformly at random among ALL agents — the fallback
in backend/main.py:320-323 does not filter out eliminated agents, and with
zero agents the outcome is null (see the counterexample), contrary to the
claim as stated.
-/
theorem claim5_empty_vote_fallback (s : GameState) (seed1 seed2 : Nat)
    (hph : s.phase = Phase.voting) (hv : s.votes = [])
    (hai : (s.players.filter (fun p => p.role == Role.ai)).map
      (fun p => p.id) ≠ []) :
    (∃ c, (complete_voting s seed1 seed2).selected_suspect = some c ∧
      c ∈ (s.players.filter (fun p => p.role == Role.ai)).map (fun p => p.id)) ∧
    (List.range (((s.players.filter (fun p => p.role == Role.ai)).map
        (fun p => p.id)).length)).map
        (fun j => (complete_voting s seed1 j).selected_suspect) =
      ((s.players.filter (fun p => p.role == Role.ai)).map
        (fun p => p.id)).map some := by
  have h0 : tallySuspect s.votes seed1 = none := by
    have hc : voteCounts s.votes = [] := by
      rw [hv]
      rfl
    rw [tallySuspect, if_neg]
    simp [hc]
  have hsusp : ∀ j, (complete_voting s seed1 j).selected_suspect =
      randomChoice j ((s.players.filter (fun p => p.role == Role.ai)).map
        (fun p => p.id)) := by
    intro j
    rw [complete_voting_of_voting s seed1 j hph]
    simp only [h0, pyTruthy, Bool.false_eq_true, if_false]
    rw [fallbackSuspect]
    simp only [hai, ne_eq, not_false_iff, if_pos]
  constructor
  · rcases randomChoice_isSome_mem seed2 _ hai with ⟨c, hc, hmem⟩
    exact ⟨c, by rw [hsusp seed2, hc], hmem⟩
  · rw [List.map_congr_left (fun j _ => hsusp j)]
    exact randomChoice_enum _ hai

/-- Claim C5 counterexample: an agent-free session with zero votes; the
claimed non-null outcome fails — resolution commits a null suspect. -/
theorem claim5_counterexample :
    stateNoAgents.phase = Phase.voting ∧
    stateNoAgents.votes = [] ∧
    (complete_voting stateNoAgents 0 0).selected_suspect = none ∧
    (complete_voting stateNoAgents 0 0).phase = Phase.gameOver := by
  decide

/-- Claim C5 witness: a no-vote session with one eliminated and one live
agent; the fallback pool is both agents, eliminated included. -/
theorem claim5_witness :
    ∃ c, (complete_voting stateElimAgent 0 0).selected_suspect = some c ∧
      c ∈ (stateElimAgent.players.filter (fun p => p.role == Role.ai)).map
        (fun p => p.id) :=
  (claim5_empty_vote_fallback stateElimAgent 0 0 (by decide) (by decide)
    (by decide)).1

/-! ## Claim C4 -/

/--
Claim C4 (amended).  On the REST vote endpoint (cast_vote), a voter who
already has an entry in the votes mapping is rejected as a no-op with the
Already voted signal and the first recorded target is retained.  The
WebSocket vote path records through process_human_vote, which performs no
duplicate check and overwrites the earlier entry (see the counterexample),
so the claim does not hold of every vote write.
-/
theorem claim4_duplicate_vote_rejected (s : GameState) (pid : String)
    (t : Option String) (a b : Nat) (hph : s.phase = Phase.voting)
    (hdup : dictMem pid s.votes = true) :
    cast_vote s pid t a b = (VoteResp.alreadyVoted, s, false) ∧
    dictGet pid (cast_vote s pid t a b).2.1.votes = dictGet pid s.votes := by
  have h1 : cast_vote s pid t a b = (VoteResp.alreadyVoted, s, false) := by
    rw [cast_vote, if_neg (fun h => h hph), if_pos hdup]
  exact ⟨h1, by rw [h1]⟩

/-- Claim C4 counterexample: the WebSocket vote write overwrites an
existing entry instead of rejecting the second vote. -/
theorem claim4_counterexample :
    dictGet "You" stateFirstVote.votes = some (some "Player 1") ∧
    dictGet "You" (process_human_vote stateFirstVote "You"
      (some "Player 2")).votes = some (some "Player 2") := by
  decide

/-- Claim C4 witness: a second REST vote by You is rejected and the first
target kept. -/
theorem claim4_witness :
    cast_vote stateFirstVote "You" (some "Player 2") 0 0 =
      (VoteResp.alreadyVoted, stateFirstVote, false) ∧
    dictGet "You" (cast_vote stateFirstVote "You" (some "Player 2") 0 0).2.1.votes =
      dictGet "You" stateFirstVote.votes :=
  claim4_duplicate_vote_rejected stateFirstVote "You" (some "Player 2") 0 0
    (by decide) (by decide)

/-! ## Claim C6 -/

/--
Claim C6.  After every accepted vote write the completion check compares
the vote count against the non-eliminated player count and triggers
resolution exactly when the former has reached the latter: for the REST
endpoint the returned trigger flag is true iff the threshold is met, a
triggering write ends in complete_voting on the written state and a
non-triggering write leaves the session in Voting with only the vote
added; one iteration of the AI vote loop merges the agent vote and runs
the same check (voteLoopCheck), which resolves exactly at the threshold.
-/
theorem claim6_completion_check (s : GameState) (pid : String)
    (t : Option String) (attempts : List (Option String))
    (voteSeed a b : Nat)
    (hph : s.phase = Phase.voting)
    (hdup : dictMem pid s.votes = false)
    (hpend : s.pending_ai_votes ≠ [])
    (helig : eligibleTargets s (s.pending_ai_votes.headD "") ≠ []) :
    (((cast_vote s pid t a b).2.2 = true ↔
        ((s.players.filter (fun p => !p.eliminated)).map (fun p => p.id)).length ≤
          (dictInsert pid t s.votes).length) ∧
      ((cast_vote s pid t a b).2.2 = true →
        (cast_vote s pid t a b).2.1 =
          complete_voting { s with votes := dictInsert pid t s.votes } a b) ∧
      ((cast_vote s pid t a b).2.2 = false →
        (cast_vote s pid t a b).2.1 =
          { s with votes := dictInsert pid t s.votes } ∧
        (cast_vote s pid t a b).2.1.phase = Phase.voting)) ∧
    (∃ v, generate_ai_vote s (s.pending_ai_votes.headD "") attempts voteSeed =
        some v ∧
      process_ai_votes_step s attempts voteSeed a b =
        some (voteLoopCheck
          { s with
            votes := dictUpdate s.votes
              (dictInsert (s.pending_ai_votes.headD "") (some v) s.votes)
            pending_ai_votes :=
              s.pending_ai_votes.filter
                (fun x => x ≠ s.pending_ai_votes.headD "") } a b)) ∧
    (∀ s1 : GameState,
      ((voteLoopCheck s1 a b).2 = true ↔
        ((s1.players.filter (fun p => !p.eliminated)).map
          (fun p => p.id)).length ≤ s1.votes.length) ∧
      ((voteLoopCheck s1 a b).2 = true →
        (voteLoopCheck s1 a b).1 = complete_voting s1 a b) ∧
      ((voteLoopCheck s1 a b).2 = false → (voteLoopCheck s1 a b).1 = s1)) := by
  refine ⟨?_, ?_, ?_⟩
  · have hbase : cast_vote s pid t a b =
        (if ((s.players.filter (fun p => !p.eliminated)).map
              (fun p => p.id)).length ≤ (dictInsert pid t s.votes).length then
          (VoteResp.success, complete_voting
            { s with votes := dictInsert pid t s.votes } a b, true)
        else (VoteResp.success,
          ({ s with votes := dictInsert pid t s.votes } : GameState), false)) := by
      rw [cast_vote, if_neg (fun h => h hph), if_neg (by rw [hdup]; simp)]
    by_cases hcond :
        ((s.players.filter (fun p => !p.eliminated)).map (fun p => p.id)).length ≤
          (dictInsert pid t s.votes).length
    · rw [hbase, if_pos hcond]
      exact ⟨Iff.intro (fun _ => hcond) (fun _ => rfl), fun _ => rfl,
        fun hfalse => Bool.noConfusion hfalse⟩
    · rw [hbase, if_neg hcond]
      exact ⟨Iff.intro (fun hf => Bool.noConfusion hf)
          (fun hc => absurd hc hcond),
        fun htrue => Bool.noConfusion htrue, fun _ => ⟨rfl, hph⟩⟩
  · rcases pickVote_isSome_mem (eligibleTargets s (s.pending_ai_votes.headD ""))
        voteSeed helig (attempts.take 3) with ⟨v, hv, _⟩
    have hgen : generate_ai_vote s (s.pending_ai_votes.headD "") attempts
        voteSeed = some v := hv
    refine ⟨v, hgen, ?_⟩
    have hnode : ai_vote_agent_node s (s.pending_ai_votes.headD "") attempts
        voteSeed = NodeResult.ok
          { votes := dictInsert (s.pending_ai_votes.headD "") (some v) s.votes
            pending := s.pending_ai_votes.filter
              (fun x => x ≠ s.pending_ai_votes.headD "") } := by
      unfold ai_vote_agent_node
      rw [if_neg hpend, hgen]
    rw [process_ai_votes_step, if_neg (by simp [hpend, hph]), hnode]
  · intro s1
    by_cases hcond :
        ((s1.players.filter (fun p => !p.eliminated)).map
          (fun p => p.id)).length ≤ s1.votes.length
    · have h1 : voteLoopCheck s1 a b = (complete_voting s1 a b, true) := by
        rw [voteLoopCheck, if_pos hcond]
      rw [h1]
      exact ⟨Iff.intro (fun _ => hcond) (fun _ => rfl), fun _ => rfl,
        fun hfalse => Bool.noConfusion hfalse⟩
    · have h1 : voteLoopCheck s1 a b = (s1, false) := by
        rw [voteLoopCheck, if_neg hcond]
      rw [h1]
      exact ⟨Iff.intro (fun hf => Bool.noConfusion hf)
          (fun hc => absurd hc hcond),
        fun htrue => Bool.noConfusion htrue, fun _ => rfl⟩

/-- Claim C6 witness: in the scenario session with one vote removed and a
pending agent voter, the human vote that reaches the threshold triggers
resolution. -/
theorem claim6_witness :
    ((cast_vote { stateScenario with
        votes := [("Player 1", some "You"), ("Player 2", some "You"),
          ("Player 3", some "You")],
        pending_ai_votes := ["Player 1"] } "You" (some "Player 1") 0 0).2.2 =
        true ↔
      ((({ stateScenario with
          votes := [("Player 1", some "You"), ("Player 2", some "You"),
            ("Player 3", some "You")],
          pending_ai_votes := ["Player 1"] } : GameState).players.filter
        (fun p => !p.eliminated)).map (fun p => p.id)).length ≤
        (dictInsert "You" (some "Player 1")
          ({ stateScenario with
            votes := [("Player 1", some "You"), ("Player 2", some "You"),
              ("Player 3", some "You")],
            pending_ai_votes := ["Player 1"] } : GameState).votes).length) :=
  (claim6_completion_check
    { stateScenario with
      votes := [("Player 1", some "You"), ("Player 2", some "You"),
        ("Player 3", some "You")],
      pending_ai_votes := ["Player 1"] }
    "You" (some "Player 1") [] 0 0 0
    (by decide) (by decide) (by decide) (by decide)).1.1

/-! ## Claim C2 -/

/--
Claim C2.  If the session phase observed at any of the three defense
layers of the agent turn pipeline — after generation, before the typing
indicator and delay, or after the delay but before the append — is no
longer Discussion, the turn aborts: no commit write happens, any state the
pipeline does write carries the chat log unchanged (nothing is appended),
and the finally block removes the agent from the processing set.
-/
theorem claim2_phase_guard_abort (s0 s1 s2 s3 : GameState)
    (res : Option TurnResult) (processing : List String) (ai_id : String)
    (hguard : s1.phase ≠ Phase.discussion ∨ s2.phase ≠ Phase.discussion ∨
      s3.phase ≠ Phase.discussion) :
    (∀ sc, (process_single_ai_message s0 s1 s2 s3 res processing ai_id).1 ≠
      TurnWrite.commit sc) ∧
    (chatWritten
        (process_single_ai_message s0 s1 s2 s3 res processing ai_id).1 = none ∨
      chatWritten
        (process_single_ai_message s0 s1 s2 s3 res processing ai_id).1 =
        some s1.chat_history) ∧
    (process_single_ai_message s0 s1 s2 s3 res processing ai_id).2 =
      processing.filter (fun a => a ≠ ai_id) := by
  unfold process_single_ai_message
  by_cases h0 : ai_id ∉ s0.pending_ai_messages
  · simp [h0, chatWritten]
  · cases res with
    | none => simp [h0, chatWritten]
    | some r =>
      by_cases h1 : s1.phase ≠ Phase.discussion
      · simp [h0, h1, chatWritten]
      · by_cases h2 : s2.phase ≠ Phase.discussion
        · simp [h0, h1, h2, chatWritten]
        · have h3 : s3.phase ≠ Phase.discussion := by
            rcases hguard with h | h | h
            · exact absurd h h1
            · exact absurd h h2
            · exact h
          simp [h0, h1, h2, h3, chatWritten]

/-- A Discussion session with the agent pending, used to drive the turn
pipeline witness. -/
def stateDiscussion : GameState :=
  { mkState [youHuman, agent1, agent2, agent3] [] Phase.discussion with
    pending_ai_messages := ["Player 1"] }

/-- A Voting session observed by the later guard checkpoints of the same
turn (the discussion timer has fired mid-pipeline). -/
def stateAfterTimer : GameState :=
  { mkState [youHuman, agent1, agent2, agent3] [] Phase.voting with
    pending_ai_votes := ["Player 1", "Player 2", "Player 3"] }

/-- Claim C2 witness: an in-flight turn that passes the first two guards
but observes Voting after the typing delay is dropped and the agent is
removed from the processing set. -/
theorem claim2_witness :
    (∀ sc, (process_single_ai_message stateDiscussion stateDiscussion
        stateDiscussion stateAfterTimer
        (some ⟨[⟨"Player 1", "hi", 0⟩], [], 0, "Player 1", "hi"⟩)
        ["Player 1", "Player 2"] "Player 1").1 ≠ TurnWrite.commit sc) ∧
    (chatWritten (process_single_ai_message stateDiscussion stateDiscussion
        stateDiscussion stateAfterTimer
        (some ⟨[⟨"Player 1", "hi", 0⟩], [], 0, "Player 1", "hi"⟩)
        ["Player 1", "Player 2"] "Player 1").1 = none ∨
      chatWritten (process_single_ai_message stateDiscussion stateDiscussion
        stateDiscussion stateAfterTimer
        (some ⟨[⟨"Player 1", "hi", 0⟩], [], 0, "Player 1", "hi"⟩)
        ["Player 1", "Player 2"] "Player 1").1 =
        some stateDiscussion.chat_history) ∧
    (process_single_ai_message stateDiscussion stateDiscussion
        stateDiscussion stateAfterTimer
        (some ⟨[⟨"Player 1", "hi", 0⟩], [], 0, "Player 1", "hi"⟩)
        ["Player 1", "Player 2"] "Player 1").2 =
      ["Player 1", "Player 2"].filter (fun a => a ≠ "Player 1") :=
  claim2_phase_guard_abort stateDiscussion stateDiscussion stateDiscussion
    stateAfterTimer (some ⟨[⟨"Player 1", "hi", 0⟩], [], 0, "Player 1", "hi"⟩)
    ["Player 1", "Player 2"] "Player 1" (by decide)

/-! ## Claim C8 -/

/--
Claim C8 (amended).  The decision of _should_agent_respond is the parsed
boolean when the capability output parses with the should_respond key,
false when the parsed object lacks the key, and on a thrown error or
unparseable output it is NOT the deterministic false the claim states:
the fallback draws random.random() and responds exactly when the draw is
below 0.3 (a 30 percent random decision).
-/
theorem claim8_decision_fallback :
    (∀ (b : Bool) (u : ℚ), should_agent_respond (DecisionOutcome.ok b) u = b) ∧
    (∀ u : ℚ, should_agent_respond DecisionOutcome.missingKey u = false) ∧
    (∀ u : ℚ, should_agent_respond DecisionOutcome.failure u = true ↔
      u < 3 / 10) := by
  refine ⟨fun b u => rfl, fun u => rfl, fun u => ?_⟩
  simp [should_agent_respond]

/-- Claim C8 counterexample: the draw 0 makes the exception fallback
respond, so the fallback decision is not deterministically false. -/
theorem claim8_counterexample :
    should_agent_respond DecisionOutcome.failure 0 = true := by
  norm_num [should_agent_respond]

/-! ## Claim C9 -/

/--
Claim C9.  With at least one non-eliminated player other than the voting
agent, vote generation inspects at most the first three capability
outcomes (for attempt in range(3)), always returns an eligible target — a
non-eliminated player different from the voting agent — and after three
failed or invalid outcomes falls back to a random eligible target.
-/
theorem claim9_vote_generation (s : GameState) (ai_id : String)
    (attempts : List (Option String)) (seed : Nat)
    (h : eligibleTargets s ai_id ≠ []) :
    ∃ v, generate_ai_vote s ai_id attempts seed = some v ∧
      v ∈ eligibleTargets s ai_id ∧
      (∃ p, p ∈ s.players ∧ p.id = v ∧ p.eliminated = false ∧ p.id ≠ ai_id) ∧
      generate_ai_vote s ai_id attempts seed =
        generate_ai_vote s ai_id (attempts.take 3) seed ∧
      ((∀ o ∈ attempts.take 3, ∀ w, o = some w → w ∉ eligibleTargets s ai_id) →
        generate_ai_vote s ai_id attempts seed =
          randomChoice seed (eligibleTargets s ai_id)) := by
  rcases pickVote_isSome_mem (eligibleTargets s ai_id) seed h
      (attempts.take 3) with ⟨v, hv, hmem⟩
  refine ⟨v, hv, hmem, ?_, ?_, ?_⟩
  · rcases List.mem_map.mp hmem with ⟨p, hp, hpid⟩
    rcases List.mem_filter.mp hp with ⟨hpmem, hpcond⟩
    simp only [Bool.and_eq_true, Bool.not_eq_true', bne_iff_ne] at hpcond
    exact ⟨p, hpmem, hpid, hpcond.1, hpcond.2⟩
  · rw [generate_ai_vote, generate_ai_vote, List.take_take, min_self]
  · intro hall
    rw [generate_ai_vote]
    exact pickVote_all_invalid _ _ _ hall

/-- Claim C9 witness: in the scenario session, agent Player 1 with three
invalid capability outcomes still returns an eligible target. -/
theorem claim9_witness :
    ∃ v, generate_ai_vote stateScenario "Player 1"
        [none, some "bogus", none] 0 = some v ∧
      v ∈ eligibleTargets stateScenario "Player 1" ∧
      (∃ p, p ∈ stateScenario.players ∧ p.id = v ∧ p.eliminated = false ∧
        p.id ≠ "Player 1") ∧
      generate_ai_vote stateScenario "Player 1" [none, some "bogus", none] 0 =
        generate_ai_vote stateScenario "Player 1"
          ([none, some "bogus", none].take 3) 0 ∧
      ((∀ o ∈ [none, some "bogus", none].take 3, ∀ w, o = some w →
          w ∉ eligibleTargets stateScenario "Player 1") →
        generate_ai_vote stateScenario "Player 1" [none, some "bogus", none] 0 =
          randomChoice 0 (eligibleTargets stateScenario "Player 1")) :=
  claim9_vote_generation stateScenario "Player 1" [none, some "bogus", none] 0
    (by decide)

/-! ## Claim C7 -/

/--
Claim C7 (amended).  The Discord channel-vote path rejects a vote from an
eliminated voter before any write: when the voter maps to an eliminated
player record, handle_channel_vote returns the eliminated-cannot-vote
reply and leaves the session (in particular its votes) unchanged.  The
backend REST endpoint cast_vote performs no eliminated-voter check and
accepts such a write (see the counterexample), so the claim does not hold
of every vote-accepting operation; in the backend orchestration itself no
operation ever marks a player eliminated, which is why its votes mapping
holds no eliminated voter in practice.
-/
theorem claim7_eliminated_voter_rejected (sess : DiscordSession) (d : Int)
    (pid : String) (rp : RoomPlayer) (pobj : PlayerInfo)
    (hph : sess.phase = Phase.voting)
    (hrp : dictGet d sess.roomPlayers = some rp)
    (hobj : sess.players.find? (fun p => p.id == rp.game_player_id) = some pobj)
    (helim : pobj.eliminated = true) :
    handle_channel_vote sess d pid = (ChanVoteMsg.eliminatedCannotVote, sess) ∧
    (handle_channel_vote sess d pid).2.votes = sess.votes := by
  have h1 : handle_channel_vote sess d pid =
      (ChanVoteMsg.eliminatedCannotVote, sess) := by
    rw [handle_channel_vote, if_neg (fun h => h hph), hrp]
    simp only [hobj, Option.map_some', Option.getD_some, helim, if_true]
  exact ⟨h1, by rw [h1]⟩

/-- The Discord session used as the eliminated-voter witness: user 7 maps
to the eliminated player record Player 5. -/
def discordSess : DiscordSession :=
  { phase := Phase.voting,
    players := [⟨"Player 5", Role.human, true, none⟩,
      ⟨"Player 1", Role.ai, false, none⟩],
    roomPlayers := [((7 : Int), ⟨"Player 5"⟩)],
    votes := [] }

/-- Claim C7 witness: the eliminated Discord voter is rejected with no
vote written. -/
theorem claim7_witness :
    handle_channel_vote discordSess 7 "Player 1" =
      (ChanVoteMsg.eliminatedCannotVote, discordSess) ∧
    (handle_channel_vote discordSess 7 "Player 1").2.votes =
      discordSess.votes :=
  claim7_eliminated_voter_rejected discordSess 7 "Player 1" ⟨"Player 5"⟩
    ⟨"Player 5", Role.human, true, none⟩ (by decide) (by decide) (by decide)
    (by decide)

/-- Claim C7 counterexample: the REST endpoint accepts a vote from an
eliminated voter, so after the write the votes mapping contains an
eliminated voter, refuting the claimed invariant over every
vote-accepting operation. -/
theorem claim7_counterexample :
    (stateElimVoter.players.find? (fun p => p.id == "You")).map
      (fun p => p.eliminated) = some true ∧
    (cast_vote stateElimVoter "You" (some "Player 1") 0 0).1 =
      VoteResp.success ∧
    dictGet "You"
      (cast_vote stateElimVoter "You" (some "Player 1") 0 0).2.1.votes =
      some (some "Player 1") := by
  decide

/-! ## Claim C10 -/

/--
Claim C10 (amended).  EVERY call of create_game_for_room raises TypeError
— not only those passing a non-None ai_player_ids — because its body
always passes three positional arguments (room_code, num_ai_players,
ai_player_ids) to create_initial_state, whose signature has exactly two
parameters; Python rejects the call before the callee runs, also when
ai_player_ids is omitted and defaults to None.  create_initial_state
itself, called with its two parameters, returns a state whose agents are
exactly Player 1 .. Player num_ai_players (in shuffled order), all of
role ai and not eliminated.
-/
theorem claim10_create_game_type_error :
    (∀ (rc : String) (n : Nat) (ids : Option (List String)) (a b c : Nat),
      create_game_for_room rc n ids a b c = Except.error PyError.typeError) ∧
    (∀ (rc : String) (n : Nat) (a b c : Nat),
      ((create_initial_state rc n a b c).players.map (fun p => p.id)).Perm
        ((List.range n).map (fun i => "Player " ++ toString (i + 1))) ∧
      ∀ p ∈ (create_initial_state rc n a b c).players,
        p.role = Role.ai ∧ p.eliminated = false) := by
  constructor
  · intro rc n ids a b c
    rfl
  · intro rc n a b c
    constructor
    · have hids : (create_initial_state rc n a b c).players.map
          (fun p => p.id) =
          seededShuffle a ((List.range n).map
            (fun i => "Player " ++ toString (i + 1))) := by
        rw [create_initial_state]
        rw [List.map_map]
        exact List.enum_map_snd _
      rw [hids, seededShuffle]
      exact List.rotate_perm _ _
    · intro p hp
      rw [create_initial_state] at hp
      rcases List.mem_map.mp hp with ⟨e, _, hep⟩
      rw [← hep]
      exact ⟨rfl, rfl⟩

/-- Claim C10 counterexample: the call with ai_player_ids = None, claimed
to return a game state, also raises TypeError. -/
theorem claim10_counterexample :
    create_game_for_room "ROOM01" 4 none 0 0 0 =
      Except.error PyError.typeError := by
  rfl

end HumanHunter
